import Mathlib

/-!
Verification development for the stdio↔HTTP MCP gateway (`src/gateway.ts`,
class `StreamableMCPGateway`).

The TypeScript source is shallowly embedded as pure Lean functions:

* JS `Map` objects (`pendingRequests`, `sessions`) become association lists
  with `Map`-style `get`/`set`/`delete`/`has` operations (`alGet`, …).
* Byte buffers become `List Char`; the decoder's `split('\n')` /
  `lines.pop()` step is `splitFrames`.
* Callbacks (promise resolvers, SSE response objects) are identified by
  numeric tags; invoking a resolver is recorded in an output list instead
  of performing an effect.
* The asynchronous interleaving of backend stdout data and `setTimeout`
  firings is an explicit event trace (`GEvent`, `runEvents`), mirroring the
  single-threaded event loop of Node.
-/

set_option autoImplicit false

namespace Gateway

/-- JSON-RPC identifiers are strings or numbers (`id?: string | number`). -/
inductive RpcId where
  | str : String → RpcId
  | num : Int → RpcId
  deriving DecidableEq, Repr

/-- Minimal JSON values, used for the HTTP bodies the gateway constructs. -/
inductive Json where
  | null : Json
  | bool : Bool → Json
  | num : Int → Json
  | str : String → Json
  | arr : List Json → Json
  | obj : List (String × Json) → Json

/-- A JSON-RPC error object (`{code, message}`). -/
structure RpcError where
  code : Int
  message : String
  deriving DecidableEq, Repr

/-- The `JSONRPCMessage` interface of `gateway.ts`. -/
structure JSONRPCMessage where
  jsonrpc : String := "2.0"
  id : Option RpcId := none
  method : Option String := none
  params : Option Json := none
  result : Option Json := none
  error : Option RpcError := none

/-- A `Session` of `gateway.ts`.  The spawned child process itself is not
represented; its stdin writes and lifecycle events appear as actions and
trace events.  `sseResponse` stores the numeric tag of the attached SSE
`Response` object, `pendingRequests` maps request ids to resolver tags. -/
structure Session where
  id : String
  messageBuffer : List Char := []
  sseResponse : Option Nat := none
  pendingRequests : List (RpcId × Nat) := []
  connected : Bool

/-! ### Association lists with JS `Map` semantics -/

section AssocOps

variable {κ α : Type} [DecidableEq κ]

/-- `Map.get`: the value at the first entry with the given key. -/
def alGet : List (κ × α) → κ → Option α
  | [], _ => none
  | e :: es, k => if e.1 = k then some e.2 else alGet es k

/-- `Map.set`: replace the first entry with the key, else append. -/
def alSet : List (κ × α) → κ → α → List (κ × α)
  | [], k, v => [(k, v)]
  | e :: es, k, v => if e.1 = k then (k, v) :: es else e :: alSet es k v

/-- `Map.delete`: remove every entry with the key. -/
def alDelete (m : List (κ × α)) (k : κ) : List (κ × α) :=
  m.filter (fun e => !decide (e.1 = k))

/-- `Map.has`. -/
def alHas (m : List (κ × α)) (k : κ) : Bool :=
  (alGet m k).isSome

end AssocOps

/-! ### Frame decoding (`handleStdioData`) -/

/-- One step of the decoder's framing: split the accumulated text at every
newline; the first component is the complete lines (in order), the second
the trailing unterminated fragment retained as the new `messageBuffer`.
This is `buffer.split('\n')` followed by `lines.pop() || ''`. -/
def splitFrames : List Char → List (List Char) × List Char
  | [] => ([], [])
  | c :: cs =>
    let r := splitFrames cs
    if c = '\n' then ([] :: r.1, r.2)
    else
      match r.1 with
      | [] => ([], c :: r.2)
      | l :: ls => ((c :: l) :: ls, r.2)

/-- Proof helper: how the frames of `x ++ y` are assembled from the frames
of `x` (lines `la`, trailing fragment `ba`) and the frames of `y`. -/
def seamGlue (la : List (List Char)) (ba : List Char)
    (p : List (List Char) × List Char) : List (List Char) × List Char :=
  match p.1 with
  | [] => (la, ba ++ p.2)
  | l :: ls => (la ++ (ba ++ l) :: ls, p.2)

/-- JS truthiness of `line.trim()`: the line has a non-whitespace char. -/
def nonblankLine (l : List Char) : Bool :=
  l.any (fun c => !c.isWhitespace)

/-! ### Request correlation (`handleStdioMessage`, timers) -/

/-- The synthetic reply produced when the 30-second timer fires:
`{jsonrpc:'2.0', id, error:{code:-32603, message:'Request timeout'}}`. -/
def timeoutResponse (i : RpcId) : JSONRPCMessage :=
  { jsonrpc := "2.0", id := some i, error := some ⟨-32603, "Request timeout"⟩ }

/-- `handleStdioMessage(session, message)`: if the message id is defined and
present in `pendingRequests`, the matching resolver is removed and invoked
with the message; separately, if an SSE response is attached, the message is
also written to it.  Returns the updated session, the resolver invocations
`(resolverTag, message)` and the SSE writes `(sinkTag, message)`. -/
def handleStdioMessage (s : Session) (m : JSONRPCMessage) :
    Session × List (Nat × JSONRPCMessage) × List (Nat × JSONRPCMessage) :=
  let step1 : Session × List (Nat × JSONRPCMessage) :=
    match m.id with
    | some i =>
      match alGet s.pendingRequests i with
      | some cb => ({ s with pendingRequests := alDelete s.pendingRequests i }, [(cb, m)])
      | none => (s, [])
    | none => (s, [])
  match step1.1.sseResponse with
  | some sink => (step1.1, step1.2, [(sink, m)])
  | none => (step1.1, step1.2, [])

/-- The body of the `setTimeout` callback armed for request id `i` with
resolver `rid`: if the id is still pending, delete it and resolve this
timer's own promise with the timeout error; otherwise do nothing. -/
def timerFire (s : Session) (i : RpcId) (rid : Nat) :
    Session × List (Nat × JSONRPCMessage) :=
  if alHas s.pendingRequests i then
    ({ s with pendingRequests := alDelete s.pendingRequests i },
     [(rid, timeoutResponse i)])
  else (s, [])

/-- An asynchronous completion delivered to a session by the event loop:
either a decoded backend stdout message, or a request timer firing.  A timer
event carries the request id and the resolver tag its closure captured. -/
inductive GEvent where
  | stdio : JSONRPCMessage → GEvent
  | timer : RpcId → Nat → GEvent

/-- Run one event against a session, collecting resolver invocations. -/
def stepEvent (s : Session) : GEvent → Session × List (Nat × JSONRPCMessage)
  | .stdio m => ((handleStdioMessage s m).1, (handleStdioMessage s m).2.1)
  | .timer i rid => timerFire s i rid

/-- Run a trace of events, concatenating the resolver invocations. -/
def runEvents (s : Session) : List GEvent → Session × List (Nat × JSONRPCMessage)
  | [] => (s, [])
  | e :: es =>
    let r := stepEvent s e
    let rest := runEvents r.1 es
    (rest.1, r.2 ++ rest.2)

/-- Is this event the timer armed for `(i, rid)`? -/
def isTimer (i : RpcId) (rid : Nat) : GEvent → Bool
  | .timer j r => decide (j = i) && decide (r = rid)
  | .stdio _ => false

/-- Well-formedness of an event for the request `(i, rid)`: any timer event
that mentions either the id `i` or the resolver `rid` is exactly the timer
for `(i, rid)` — i.e. no other concurrent request reused this id or this
resolver. -/
def timerGuard (i : RpcId) (rid : Nat) : GEvent → Bool
  | .timer j r => if r = rid ∨ j = i then decide (j = i ∧ r = rid) else true
  | .stdio _ => true

/-! ### Line processing of the decoder -/

/-- Process one complete line: skip blank lines, attempt to parse, and on
success dispatch the message; a parse failure drops the line.  `parse`
stands for `JSON.parse` (`none` = throw). -/
def processLine (parse : List Char → Option JSONRPCMessage) (s : Session)
    (line : List Char) :
    Session × List (Nat × JSONRPCMessage) × List (Nat × JSONRPCMessage) :=
  if nonblankLine line then
    match parse line with
    | some m => handleStdioMessage s m
    | none => (s, [], [])
  else (s, [], [])

/-- Process the extracted complete lines in order. -/
def processLines (parse : List Char → Option JSONRPCMessage) (s : Session) :
    List (List Char) →
    Session × List (Nat × JSONRPCMessage) × List (Nat × JSONRPCMessage)
  | [] => (s, [], [])
  | l :: ls =>
    let r1 := processLine parse s l
    let r2 := processLines parse r1.1 ls
    (r2.1, r1.2.1 ++ r2.2.1, r1.2.2 ++ r2.2.2)

/-- Dispatch a list of already-decoded messages in order (the reference
behaviour the decoder is proved equivalent to). -/
def dispatchMessages (s : Session) :
    List JSONRPCMessage →
    Session × List (Nat × JSONRPCMessage) × List (Nat × JSONRPCMessage)
  | [] => (s, [], [])
  | m :: ms =>
    let r1 := handleStdioMessage s m
    let r2 := dispatchMessages r1.1 ms
    (r2.1, r1.2.1 ++ r2.2.1, r1.2.2 ++ r2.2.2)

/-- `handleStdioData(session, data)`: append the chunk to `messageBuffer`,
split on newlines, retain the trailing fragment as the new buffer, and
process every complete line. -/
def handleStdioData (parse : List Char → Option JSONRPCMessage) (s : Session)
    (data : List Char) :
    Session × List (Nat × JSONRPCMessage) × List (Nat × JSONRPCMessage) :=
  let fr := splitFrames (s.messageBuffer ++ data)
  processLines parse { s with messageBuffer := fr.2 } fr.1

/-- Feed a list of chunks one `data` event at a time. -/
def handleStdioDataList (parse : List Char → Option JSONRPCMessage)
    (s : Session) :
    List (List Char) →
    Session × List (Nat × JSONRPCMessage) × List (Nat × JSONRPCMessage)
  | [] => (s, [], [])
  | d :: ds =>
    let r1 := handleStdioData parse s d
    let r2 := handleStdioDataList parse r1.1 ds
    (r2.1, r1.2.1 ++ r2.2.1, r1.2.2 ++ r2.2.2)

/-! ### Session lifecycle and the bridge façade -/

/-- The module's fixed default session id. -/
def defaultSessionId : String := "default-session"

/-- JS `a || b` on optional strings: the empty string is falsy. -/
def jsOr (a b : Option String) : Option String :=
  match a with
  | some s => if s = "" then b else some s
  | none => b

/-- `handleMessage`'s session-id resolution:
`req.query.sessionId || req.headers['x-session-id'] || req.body.sessionId`,
falling back to the default id. -/
def resolveSessionId (q h b : Option String) : String :=
  match jsOr (jsOr q h) b with
  | some s => if s = "" then defaultSessionId else s
  | none => defaultSessionId

/-- `handleSSE`'s session-id resolution (query, then header, no body). -/
def resolveSseSessionId (q h : Option String) : String :=
  resolveSessionId q h none

/-- The session store (`this.sessions`). -/
abbrev SessionStore := List (String × Session)

/-- `createSession(sessionId)`.  `spawnOk = false` models `spawn` throwing:
the error propagates and nothing is stored.  On success the session is
created with an empty buffer and empty pending table, marked
`connected := true` and stored.  (The stdout/stderr/error/exit callbacks the
source registers here appear as `handleStdioData`, `onProcessError` and
`onProcessExit`.) -/
def createSession (spawnOk : Bool) (store : SessionStore) (sessionId : String) :
    Option (SessionStore × Session) :=
  if spawnOk then
    let s : Session :=
      { id := sessionId, messageBuffer := [], sseResponse := none,
        pendingRequests := [], connected := true }
    some (alSet store sessionId s, s)
  else none

/-- The session lookup-or-create step at the top of `handleMessage`:
reuse a stored, connected session, otherwise try to create one (the caller
stores the fresh session a second time, a no-op repeated here verbatim). -/
def ensureSession (spawnOk : Bool) (store : SessionStore) (sessionId : String) :
    Option (SessionStore × Session) :=
  match alGet store sessionId with
  | some s =>
    if s.connected then some (store, s)
    else
      match createSession spawnOk store sessionId with
      | some r => some (alSet r.1 sessionId r.2, r.2)
      | none => none
  | none =>
    match createSession spawnOk store sessionId with
    | some r => some (alSet r.1 sessionId r.2, r.2)
    | none => none

/-- The synchronous side effects `handleMessage` performs against the
backend, in program order. -/
inductive Action where
  | setPending : RpcId → Nat → Action
  | writeStdin : JSONRPCMessage → Action
  | armTimer : Nat → RpcId → Nat → Action

/-- The HTTP answer of a `handleMessage` call: either a body sent
immediately with the given status, or a suspension on the resolver `rid`
(the awaited promise; the resolved message is then sent with status 200). -/
inductive HttpReply where
  | immediate : Nat → Json → HttpReply
  | awaiting : Nat → HttpReply

/-- Result of one `handleMessage` call: the updated store, the backend
actions performed (in order), and the HTTP reply. -/
structure HandleMessageResult where
  sessions : SessionStore
  actions : List Action
  reply : HttpReply

/-- JSON encoding of an id for a response body. -/
def idJson : RpcId → Json
  | .str s => Json.str s
  | .num n => Json.num n

/-- Body of the HTTP 500 answer when session creation fails. -/
def failedCreateBody : Json :=
  Json.obj [("jsonrpc", Json.str "2.0"),
            ("error", Json.obj [("code", Json.num (-32603)),
                                ("message", Json.str "Failed to create session")])]

/-- Body of the intercepted `logging/setLevel` answer. -/
def setLevelBody (i : RpcId) : Json :=
  Json.obj [("jsonrpc", Json.str "2.0"), ("id", idJson i),
            ("result", Json.obj [])]

/-- Body of the intercepted `resources/list` answer. -/
def resourcesListBody (i : RpcId) : Json :=
  Json.obj [("jsonrpc", Json.str "2.0"), ("id", idJson i),
            ("result", Json.obj [("resources", Json.arr [])])]

/-- `handleMessage(req, res)`.  `rid` is the tag of the promise resolver
allocated for this call; `q`/`h`/`b` are the three session-id carriers of
the request.  For a request with an id and a non-intercepted method the
source registers the pending resolver, then writes to stdin, then arms the
30-second timer, and awaits; both interceptions answer before any backend
action; a notification is forwarded and acknowledged with 202 `{}`. -/
def handleMessage (spawnOk : Bool) (rid : Nat) (store : SessionStore)
    (q h b : Option String) (m : JSONRPCMessage) : HandleMessageResult :=
  let sessionId := resolveSessionId q h b
  match ensureSession spawnOk store sessionId with
  | none =>
    { sessions := store, actions := [],
      reply := .immediate 500 failedCreateBody }
  | some (store', s) =>
    match m.id with
    | some i =>
      if m.method = some "logging/setLevel" then
        { sessions := store', actions := [],
          reply := .immediate 200 (setLevelBody i) }
      else if m.method = some "resources/list" then
        { sessions := store', actions := [],
          reply := .immediate 200 (resourcesListBody i) }
      else
        { sessions := alSet store' sessionId
            { s with pendingRequests := alSet s.pendingRequests i rid },
          actions := [.setPending i rid, .writeStdin m, .armTimer 30000 i rid],
          reply := .awaiting rid }
    | none =>
      { sessions := store', actions := [.writeStdin m],
        reply := .immediate 202 (Json.obj []) }

/-- Result of `handleSSE`: `ok sid` when the stream was attached for the
session `sid` (headers set, `:ok` comment written), `failed500` when
session creation failed. -/
inductive SseReply where
  | ok : String → SseReply
  | failed500 : SseReply
  deriving DecidableEq, Repr

/-- `handleSSE(req, res)`.  `res` is the tag of this SSE response object.
An existing session is reused (its connectedness is not checked); a missing
one is created; then this response replaces the session's `sseResponse`. -/
def handleSSE (spawnOk : Bool) (store : SessionStore) (q h : Option String)
    (res : Nat) : SessionStore × SseReply :=
  let sessionId := resolveSseSessionId q h
  match alGet store sessionId with
  | some s => (alSet store sessionId { s with sseResponse := some res }, .ok sessionId)
  | none =>
    match createSession spawnOk store sessionId with
    | some (store', s) =>
      (alSet store' sessionId { s with sseResponse := some res }, .ok sessionId)
    | none => (store, .failed500)

/-- The `req.on('close')` handler registered by `handleSSE` for the response
tagged `res`: clear the session's sink only if it still is this response. -/
def onSseClose (store : SessionStore) (sessionId : String) (res : Nat) :
    SessionStore :=
  match alGet store sessionId with
  | some s =>
    if s.sseResponse = some res then
      alSet store sessionId { s with sseResponse := none }
    else store
  | none => store

/-- The child process `error` handler: mark the session disconnected.  It
does not remove the session from the store. -/
def onProcessError (store : SessionStore) (sessionId : String) : SessionStore :=
  match alGet store sessionId with
  | some s => alSet store sessionId { s with connected := false }
  | none => store

/-- The child process `exit` handler: mark the captured session
disconnected and delete the store entry.  Returns the new store and the
captured session as the still-armed timer closures see it; no pending
resolver is invoked and no new process is spawned. -/
def onProcessExit (store : SessionStore) (sessionId : String) :
    SessionStore × Option Session :=
  match alGet store sessionId with
  | some s => (alDelete store sessionId, some { s with connected := false })
  | none => (alDelete store sessionId, none)

/-! ## Lemmas about the `Map` operations -/

section AssocLemmas

variable {κ α : Type} [DecidableEq κ]

theorem alGet_set_self (m : List (κ × α)) (k : κ) (v : α) :
    alGet (alSet m k v) k = some v := by
  induction m with
  | nil => simp [alSet, alGet]
  | cons e es ih =>
    by_cases h : e.1 = k
    · simp [alSet, h, alGet]
    · simp [alSet, h, alGet, ih]

theorem mem_alSet (m : List (κ × α)) (k : κ) (v : α) :
    ∀ e ∈ alSet m k v, e = (k, v) ∨ e ∈ m := by
  induction m with
  | nil => simp [alSet]
  | cons e es ih =>
    by_cases h : e.1 = k
    · intro x hx
      simp only [alSet, if_pos h, List.mem_cons] at hx
      rcases hx with hx | hx
      · exact Or.inl hx
      · exact Or.inr (List.mem_cons_of_mem _ hx)
    · intro x hx
      simp only [alSet, if_neg h, List.mem_cons] at hx
      rcases hx with hx | hx
      · exact Or.inr (by simp [hx])
      · rcases ih x hx with h1 | h1
        · exact Or.inl h1
        · exact Or.inr (List.mem_cons_of_mem _ h1)

theorem alGet_delete_self (m : List (κ × α)) (k : κ) :
    alGet (alDelete m k) k = none := by
  induction m with
  | nil => rfl
  | cons e es ih =>
    by_cases h : e.1 = k
    · simpa [alDelete, h] using ih
    · simpa [alDelete, alGet, h] using ih

theorem alGet_delete_ne (m : List (κ × α)) (k k' : κ) (h : k' ≠ k) :
    alGet (alDelete m k) k' = alGet m k' := by
  induction m with
  | nil => rfl
  | cons e es ih =>
    by_cases he : e.1 = k
    · have h1 : e.1 ≠ k' := fun hc => h (hc.symm.trans he)
      have h2 : alDelete (e :: es) k = alDelete es k := by simp [alDelete, he]
      rw [h2, ih]
      simp [alGet, h1]
    · have h2 : alDelete (e :: es) k = e :: alDelete es k := by simp [alDelete, he]
      rw [h2]
      by_cases he' : e.1 = k'
      · simp [alGet, he']
      · simp [alGet, he', ih]

theorem mem_alDelete (m : List (κ × α)) (k : κ) :
    ∀ e ∈ alDelete m k, e ∈ m ∧ e.1 ≠ k := by
  intro e he
  simp only [alDelete, List.mem_filter, Bool.not_eq_true', decide_eq_false_iff_not] at he
  exact he

theorem alGet_mem (m : List (κ × α)) (k : κ) (v : α) :
    alGet m k = some v → (k, v) ∈ m := by
  induction m with
  | nil => intro h; simp [alGet] at h
  | cons e es ih =>
    obtain ⟨a, b⟩ := e
    intro h
    by_cases he : a = k
    · subst he
      simp [alGet] at h
      subst h
      exact List.mem_cons_self _ _
    · simp only [alGet, if_neg he] at h
      exact List.mem_cons_of_mem _ (ih h)

end AssocLemmas

/-! ## Lemmas about the frame decoder's splitting step -/

theorem splitFrames_cons_nl (cs : List Char) :
    splitFrames ('\n' :: cs) = ([] :: (splitFrames cs).1, (splitFrames cs).2) := by
  simp [splitFrames]

theorem splitFrames_cons_ne (c : Char) (cs : List Char) (h : c ≠ '\n') :
    splitFrames (c :: cs) =
      match (splitFrames cs).1 with
      | [] => ([], c :: (splitFrames cs).2)
      | l :: ls => ((c :: l) :: ls, (splitFrames cs).2) := by
  simp only [splitFrames, if_neg h]

theorem splitFrames_no_newline (s : List Char) :
    (∀ l ∈ (splitFrames s).1, '\n' ∉ l) ∧ '\n' ∉ (splitFrames s).2 := by
  induction s with
  | nil => simp [splitFrames]
  | cons c cs ih =>
    by_cases h : c = '\n'
    · subst h
      rw [splitFrames_cons_nl]
      refine ⟨?_, ih.2⟩
      intro l hl
      rcases List.mem_cons.mp hl with hl | hl
      · subst hl; simp
      · exact ih.1 l hl
    · rw [splitFrames_cons_ne c cs h]
      cases hr : (splitFrames cs).1 with
      | nil =>
        simp only
        refine ⟨by simp, ?_⟩
        intro hc
        rcases List.mem_cons.mp hc with hc | hc
        · exact h hc.symm
        · exact ih.2 hc
      | cons l ls =>
        simp only
        refine ⟨?_, ih.2⟩
        intro x hx
        rcases List.mem_cons.mp hx with hx | hx
        · subst hx
          intro hc
          rcases List.mem_cons.mp hc with hc | hc
          · exact h hc.symm
          · exact ih.1 l (hr ▸ List.mem_cons_self l ls) hc
        · exact ih.1 x (hr ▸ List.mem_cons_of_mem l hx)

theorem splitFrames_of_no_newline (d : List Char) (h : '\n' ∉ d) :
    splitFrames d = ([], d) := by
  induction d with
  | nil => rfl
  | cons c cs ih =>
    have hc : c ≠ '\n' := fun hc => h (hc ▸ List.mem_cons_self c cs)
    have hcs : '\n' ∉ cs := fun hm => h (List.mem_cons_of_mem c hm)
    rw [splitFrames_cons_ne c cs hc, ih hcs]

theorem splitFrames_append (a b : List Char) :
    splitFrames (a ++ b) =
      seamGlue (splitFrames a).1 (splitFrames a).2 (splitFrames b) := by
  induction a with
  | nil =>
    rcases hb : splitFrames b with ⟨lb, bb⟩
    cases lb with
    | nil => simp [seamGlue, splitFrames, hb]
    | cons l ls => simp [seamGlue, splitFrames, hb]
  | cons c cs ih =>
    rcases hcs : splitFrames cs with ⟨lc, bc⟩
    rcases hb : splitFrames b with ⟨lb, bb⟩
    rw [hcs, hb] at ih
    by_cases h : c = '\n'
    · subst h
      rw [List.cons_append, splitFrames_cons_nl, splitFrames_cons_nl, ih, hcs]
      cases lb with
      | nil => simp [seamGlue]
      | cons l ls => simp [seamGlue]
    · rw [List.cons_append, splitFrames_cons_ne c _ h, splitFrames_cons_ne c cs h, ih, hcs]
      cases lb with
      | nil =>
        cases lc with
        | nil => simp [seamGlue]
        | cons l0 lcs => simp [seamGlue]
      | cons l ls =>
        cases lc with
        | nil => simp [seamGlue]
        | cons l0 lcs => simp [seamGlue]

theorem splitFrames_append_chain (x y : List Char) :
    splitFrames (x ++ y) =
      ((splitFrames x).1 ++ (splitFrames ((splitFrames x).2 ++ y)).1,
       (splitFrames ((splitFrames x).2 ++ y)).2) := by
  have hx2 : '\n' ∉ (splitFrames x).2 := (splitFrames_no_newline x).2
  rw [splitFrames_append x y, splitFrames_append ((splitFrames x).2) y,
    splitFrames_of_no_newline _ hx2]
  rcases hy : splitFrames y with ⟨ly, by'⟩
  cases ly with
  | nil => simp [seamGlue]
  | cons l ls => simp [seamGlue]

theorem splitFrames_flatten_docs (docs : List (List Char))
    (h : ∀ d ∈ docs, '\n' ∉ d) :
    splitFrames ((docs.map (fun d => d ++ ['\n'])).flatten) = (docs, []) := by
  induction docs with
  | nil => rfl
  | cons d ds ih =>
    have hd : '\n' ∉ d := h d (List.mem_cons_self d ds)
    have hds : ∀ x ∈ ds, '\n' ∉ x := fun x hx => h x (List.mem_cons_of_mem d hx)
    rw [List.map_cons, List.flatten_cons, List.append_assoc]
    rw [splitFrames_append d _, splitFrames_of_no_newline d hd]
    have h2 : ('\n' :: []) ++ (ds.map (fun d => d ++ ['\n'])).flatten
        = '\n' :: (ds.map (fun d => d ++ ['\n'])).flatten := rfl
    rw [h2, splitFrames_cons_nl, ih hds]
    simp [seamGlue]

/-! ## Lemmas about message dispatch and line processing -/

theorem handleStdioMessage_buffer_indep (s : Session) (m : JSONRPCMessage)
    (β : List Char) :
    handleStdioMessage { s with messageBuffer := β } m =
      ({ (handleStdioMessage s m).1 with messageBuffer := β },
       (handleStdioMessage s m).2.1, (handleStdioMessage s m).2.2) := by
  cases hmi : m.id with
  | none =>
    cases hs : s.sseResponse with
    | none => simp [handleStdioMessage, hmi, hs]
    | some k => simp [handleStdioMessage, hmi, hs]
  | some i =>
    cases hg : alGet s.pendingRequests i with
    | none =>
      cases hs : s.sseResponse with
      | none => simp [handleStdioMessage, hmi, hg, hs]
      | some k => simp [handleStdioMessage, hmi, hg, hs]
    | some cb =>
      cases hs : s.sseResponse with
      | none => simp [handleStdioMessage, hmi, hg, hs]
      | some k => simp [handleStdioMessage, hmi, hg, hs]

theorem handleStdioMessage_messageBuffer (s : Session) (m : JSONRPCMessage) :
    (handleStdioMessage s m).1.messageBuffer = s.messageBuffer := by
  cases hmi : m.id with
  | none =>
    cases hs : s.sseResponse with
    | none => simp [handleStdioMessage, hmi, hs]
    | some k => simp [handleStdioMessage, hmi, hs]
  | some i =>
    cases hg : alGet s.pendingRequests i with
    | none =>
      cases hs : s.sseResponse with
      | none => simp [handleStdioMessage, hmi, hg, hs]
      | some k => simp [handleStdioMessage, hmi, hg, hs]
    | some cb =>
      cases hs : s.sseResponse with
      | none => simp [handleStdioMessage, hmi, hg, hs]
      | some k => simp [handleStdioMessage, hmi, hg, hs]

theorem processLine_buffer_indep (parse : List Char → Option JSONRPCMessage)
    (s : Session) (l : List Char) (β : List Char) :
    processLine parse { s with messageBuffer := β } l =
      ({ (processLine parse s l).1 with messageBuffer := β },
       (processLine parse s l).2.1, (processLine parse s l).2.2) := by
  cases hb : nonblankLine l with
  | false => simp [processLine, hb]
  | true =>
    cases hp : parse l with
    | none => simp [processLine, hb, hp]
    | some m => simp [processLine, hb, hp, handleStdioMessage_buffer_indep]

theorem processLine_messageBuffer (parse : List Char → Option JSONRPCMessage)
    (s : Session) (l : List Char) :
    (processLine parse s l).1.messageBuffer = s.messageBuffer := by
  cases hb : nonblankLine l with
  | false => simp [processLine, hb]
  | true =>
    cases hp : parse l with
    | none => simp [processLine, hb, hp]
    | some m => simp [processLine, hb, hp, handleStdioMessage_messageBuffer]

theorem processLines_messageBuffer (parse : List Char → Option JSONRPCMessage)
    (ls : List (List Char)) :
    ∀ s : Session, (processLines parse s ls).1.messageBuffer = s.messageBuffer := by
  induction ls with
  | nil => intro s; rfl
  | cons l ls ih =>
    intro s
    simp only [processLines]
    rw [ih, processLine_messageBuffer]

theorem processLines_buffer_indep (parse : List Char → Option JSONRPCMessage)
    (ls : List (List Char)) :
    ∀ (s : Session) (β : List Char),
      processLines parse { s with messageBuffer := β } ls =
        ({ (processLines parse s ls).1 with messageBuffer := β },
         (processLines parse s ls).2.1, (processLines parse s ls).2.2) := by
  induction ls with
  | nil => intro s β; rfl
  | cons l ls ih =>
    intro s β
    simp only [processLines]
    rw [processLine_buffer_indep, ih]

theorem processLines_append (parse : List Char → Option JSONRPCMessage)
    (ls1 ls2 : List (List Char)) :
    ∀ s : Session,
      processLines parse s (ls1 ++ ls2) =
        ((processLines parse (processLines parse s ls1).1 ls2).1,
         (processLines parse s ls1).2.1 ++
           (processLines parse (processLines parse s ls1).1 ls2).2.1,
         (processLines parse s ls1).2.2 ++
           (processLines parse (processLines parse s ls1).1 ls2).2.2) := by
  induction ls1 with
  | nil => intro s; rfl
  | cons l ls1 ih =>
    intro s
    simp only [List.cons_append, processLines, List.append_eq]
    rw [ih]
    simp [List.append_assoc]

theorem processLines_eq_dispatch (parse : List Char → Option JSONRPCMessage)
    (ls : List (List Char)) :
    ∀ s : Session,
      processLines parse s ls =
        dispatchMessages s ((ls.filter nonblankLine).filterMap parse) := by
  induction ls with
  | nil => intro s; rfl
  | cons l ls ih =>
    intro s
    cases hb : nonblankLine l with
    | false =>
      simp only [processLines, processLine, hb, Bool.false_eq_true, if_neg, ite_false,
        List.filter_cons, List.nil_append]
      simp [ih]
    | true =>
      cases hp : parse l with
      | none =>
        simp only [processLines, processLine, hb, ite_true, hp, List.filter_cons,
          List.filterMap_cons]
        simp [ih]
      | some m =>
        simp only [processLines, processLine, hb, ite_true, hp, List.filter_cons,
          List.filterMap_cons]
        simp [ih, dispatchMessages]

/-! ## Lemmas about whole `data` events -/

theorem handleStdioData_messageBuffer (parse : List Char → Option JSONRPCMessage)
    (s : Session) (data : List Char) :
    (handleStdioData parse s data).1.messageBuffer =
      (splitFrames (s.messageBuffer ++ data)).2 := by
  unfold handleStdioData
  rw [processLines_messageBuffer]

theorem handleStdioData_no_newline (parse : List Char → Option JSONRPCMessage)
    (s : Session) (data : List Char) :
    '\n' ∉ (handleStdioData parse s data).1.messageBuffer := by
  rw [handleStdioData_messageBuffer]
  exact (splitFrames_no_newline _).2

theorem handleStdioData_append (parse : List Char → Option JSONRPCMessage)
    (s : Session) (a b : List Char) :
    handleStdioData parse s (a ++ b) =
      ((handleStdioData parse (handleStdioData parse s a).1 b).1,
       (handleStdioData parse s a).2.1 ++
         (handleStdioData parse (handleStdioData parse s a).1 b).2.1,
       (handleStdioData parse s a).2.2 ++
         (handleStdioData parse (handleStdioData parse s a).1 b).2.2) := by
  simp only [handleStdioData, processLines_messageBuffer]
  rw [← List.append_assoc, splitFrames_append_chain (s.messageBuffer ++ a) b]
  rw [processLines_append]
  have h2 := processLines_buffer_indep parse (splitFrames (s.messageBuffer ++ a)).1
      { s with messageBuffer := (splitFrames (s.messageBuffer ++ a)).2 }
      (splitFrames ((splitFrames (s.messageBuffer ++ a)).2 ++ b)).2
  dsimp only at h2
  rw [h2]

theorem handleStdioDataList_flatten (parse : List Char → Option JSONRPCMessage)
    (ds : List (List Char)) :
    ∀ s : Session, '\n' ∉ s.messageBuffer →
      handleStdioDataList parse s ds = handleStdioData parse s ds.flatten := by
  induction ds with
  | nil =>
    intro s h
    simp only [handleStdioDataList, List.flatten_nil, handleStdioData, List.append_nil,
      splitFrames_of_no_newline _ h, processLines]
  | cons d ds ih =>
    intro s h
    simp only [handleStdioDataList, List.flatten_cons]
    rw [handleStdioData_append parse s d ds.flatten,
      ih _ (handleStdioData_no_newline parse s d)]

/-! ## Lemmas about the request/timeout event traces -/

theorem handleStdioMessage_state (s : Session) (m : JSONRPCMessage) :
    (handleStdioMessage s m).1 =
      (match m.id with
       | some i =>
         match alGet s.pendingRequests i with
         | some _ => { s with pendingRequests := alDelete s.pendingRequests i }
         | none => s
       | none => s) := by
  cases hmi : m.id with
  | none =>
    cases hs : s.sseResponse with
    | none => simp [handleStdioMessage, hmi, hs]
    | some k => simp [handleStdioMessage, hmi, hs]
  | some i =>
    cases hg : alGet s.pendingRequests i with
    | none =>
      cases hs : s.sseResponse with
      | none => simp [handleStdioMessage, hmi, hg, hs]
      | some k => simp [handleStdioMessage, hmi, hg, hs]
    | some cb =>
      cases hs : s.sseResponse with
      | none => simp [handleStdioMessage, hmi, hg, hs]
      | some k => simp [handleStdioMessage, hmi, hg, hs]

theorem handleStdioMessage_res (s : Session) (m : JSONRPCMessage) :
    (handleStdioMessage s m).2.1 =
      (match m.id with
       | some i =>
         match alGet s.pendingRequests i with
         | some cb => [(cb, m)]
         | none => []
       | none => []) := by
  cases hmi : m.id with
  | none =>
    cases hs : s.sseResponse with
    | none => simp [handleStdioMessage, hmi, hs]
    | some k => simp [handleStdioMessage, hmi, hs]
  | some i =>
    cases hg : alGet s.pendingRequests i with
    | none =>
      cases hs : s.sseResponse with
      | none => simp [handleStdioMessage, hmi, hg, hs]
      | some k => simp [handleStdioMessage, hmi, hg, hs]
    | some cb =>
      cases hs : s.sseResponse with
      | none => simp [handleStdioMessage, hmi, hg, hs]
      | some k => simp [handleStdioMessage, hmi, hg, hs]

theorem resolution_shape_lift (i : RpcId) (ev : GEvent) (es : List GEvent)
    (m : JSONRPCMessage) :
    (m = timeoutResponse i ∨ (GEvent.stdio m ∈ es ∧ m.id = some i)) →
    (m = timeoutResponse i ∨ (GEvent.stdio m ∈ ev :: es ∧ m.id = some i)) := by
  rintro (h | ⟨h1, h2⟩)
  · exact Or.inl h
  · exact Or.inr ⟨List.mem_cons_of_mem _ h1, h2⟩

theorem runEvents_absent (i : RpcId) (rid : Nat) (tr : List GEvent) :
    ∀ s : Session,
      alGet s.pendingRequests i = none →
      (∀ e ∈ s.pendingRequests, e.2 ≠ rid) →
      (∀ ev ∈ tr, timerGuard i rid ev = true) →
      (runEvents s tr).2.filter (fun p => decide (p.1 = rid)) = [] := by
  induction tr with
  | nil => intro s _ _ _; rfl
  | cons ev es ih =>
    intro s habs hval htr
    have htr' : ∀ e ∈ es, timerGuard i rid e = true :=
      fun e he => htr e (List.mem_cons_of_mem _ he)
    cases ev with
    | stdio m =>
      simp only [runEvents, stepEvent, List.filter_append]
      rw [handleStdioMessage_state, handleStdioMessage_res]
      cases hmi : m.id with
      | none =>
        simp only [List.filter_nil, List.nil_append]
        exact ih s habs hval htr'
      | some j =>
        cases hg : alGet s.pendingRequests j with
        | none =>
          simp only [hg, List.filter_nil, List.nil_append]
          exact ih s habs hval htr'
        | some cb =>
          have hcb : cb ≠ rid := fun hc => hval (j, cb) (alGet_mem _ _ _ hg) hc
          have hjne : j ≠ i := by
            intro hji
            rw [hji, habs] at hg
            cases hg
          have habs' : alGet (alDelete s.pendingRequests j) i = none := by
            rw [alGet_delete_ne _ _ _ (fun h => hjne h.symm)]
            exact habs
          have hval' : ∀ e ∈ alDelete s.pendingRequests j, e.2 ≠ rid :=
            fun e he => hval e (mem_alDelete _ _ e he).1
          simp only [hg, List.filter_cons, decide_eq_true_eq]
          rw [if_neg hcb]
          simp only [List.filter_nil, List.nil_append]
          exact ih ({ s with pendingRequests := alDelete s.pendingRequests j })
            habs' hval' htr'
    | timer j r =>
      have hgd := htr _ (List.mem_cons_self _ _)
      by_cases hc : r = rid ∨ j = i
      · have hji : j = i ∧ r = rid := by simpa [timerGuard, hc] using hgd
        obtain ⟨hj, hr⟩ := hji
        rw [hj, hr]
        simp only [runEvents, stepEvent, timerFire, alHas, habs, Option.isSome_none,
          Bool.false_eq_true, if_false, List.nil_append]
        exact ih s habs hval htr'
      · push_neg at hc
        obtain ⟨hr, hj⟩ := hc
        cases hh : alGet s.pendingRequests j with
        | none =>
          simp only [runEvents, stepEvent, timerFire, alHas, hh, Option.isSome_none,
            Bool.false_eq_true, if_false, List.nil_append]
          exact ih s habs hval htr'
        | some cb =>
          have habs' : alGet (alDelete s.pendingRequests j) i = none := by
            rw [alGet_delete_ne _ _ _ (fun h => hj h.symm)]
            exact habs
          have hval' : ∀ e ∈ alDelete s.pendingRequests j, e.2 ≠ rid :=
            fun e he => hval e (mem_alDelete _ _ e he).1
          simp only [runEvents, stepEvent, timerFire, alHas, hh, Option.isSome_some,
            if_true, List.filter_append, List.filter_cons, decide_eq_true_eq]
          rw [if_neg hr]
          simp only [List.filter_nil, List.nil_append]
          exact ih ({ s with pendingRequests := alDelete s.pendingRequests j })
            habs' hval' htr'

theorem runEvents_exactly_once (i : RpcId) (rid : Nat) (tr : List GEvent) :
    ∀ s : Session,
      alGet s.pendingRequests i = some rid →
      (∀ e ∈ s.pendingRequests, e.2 = rid → e.1 = i) →
      (∀ ev ∈ tr, timerGuard i rid ev = true) →
      (tr.filter (isTimer i rid)).length = 1 →
      ∃ m, (runEvents s tr).2.filter (fun p => decide (p.1 = rid)) = [(rid, m)] ∧
        (m = timeoutResponse i ∨ (GEvent.stdio m ∈ tr ∧ m.id = some i)) := by
  induction tr with
  | nil => intro s _ _ _ hcount; simp at hcount
  | cons ev es ih =>
    intro s hget hval htr hcount
    have htr' : ∀ e ∈ es, timerGuard i rid e = true :=
      fun e he => htr e (List.mem_cons_of_mem _ he)
    cases ev with
    | stdio m =>
      have hcount' : (es.filter (isTimer i rid)).length = 1 := by
        simpa [List.filter_cons, isTimer] using hcount
      simp only [runEvents, stepEvent, List.filter_append]
      rw [handleStdioMessage_state, handleStdioMessage_res]
      cases hmi : m.id with
      | none =>
        simp only [hmi, List.filter_nil, List.nil_append]
        obtain ⟨m', h1, h2⟩ := ih s hget hval htr' hcount'
        exact ⟨m', h1, resolution_shape_lift i _ es m' h2⟩
      | some j =>
        cases hg : alGet s.pendingRequests j with
        | none =>
          simp only [hg, List.filter_nil, List.nil_append]
          obtain ⟨m', h1, h2⟩ := ih s hget hval htr' hcount'
          exact ⟨m', h1, resolution_shape_lift i _ es m' h2⟩
        | some cb =>
          by_cases hcb : cb = rid
          · rw [hcb] at hg
            have hj : j = i := hval (j, rid) (alGet_mem _ _ _ hg) rfl
            have hmi' : m.id = some i := by rw [hmi, hj]
            have habs' : alGet (alDelete s.pendingRequests j) i = none := by
              rw [hj]
              exact alGet_delete_self s.pendingRequests i
            have hval' : ∀ e ∈ alDelete s.pendingRequests j, e.2 ≠ rid := by
              intro e he hr2
              have hei : e.1 = i := hval e (mem_alDelete _ _ e he).1 hr2
              exact (mem_alDelete _ _ e he).2 (hei.trans hj.symm)
            have hrest := runEvents_absent i rid es
              ({ s with pendingRequests := alDelete s.pendingRequests j })
              habs' hval' htr'
            refine ⟨m, ?_, Or.inr ⟨List.mem_cons_self _ _, hmi'⟩⟩
            simp only [hg, List.filter_cons, decide_eq_true_eq]
            simp [hrest]
          · have hj : j ≠ i := by
              intro hji
              rw [hji, hget] at hg
              exact hcb (Option.some.inj hg).symm
            have hget' : alGet (alDelete s.pendingRequests j) i = some rid := by
              rw [alGet_delete_ne _ _ _ (fun h => hj h.symm)]
              exact hget
            have hval' : ∀ e ∈ alDelete s.pendingRequests j, e.2 = rid → e.1 = i :=
              fun e he => hval e (mem_alDelete _ _ e he).1
            obtain ⟨m', h1, h2⟩ :=
              ih ({ s with pendingRequests := alDelete s.pendingRequests j })
                hget' hval' htr' hcount'
            refine ⟨m', ?_, resolution_shape_lift i _ es m' h2⟩
            simp only [hg, List.filter_cons, decide_eq_true_eq]
            rw [if_neg hcb]
            simp only [List.filter_nil, List.nil_append]
            exact h1
    | timer j r =>
      have hgd := htr _ (List.mem_cons_self _ _)
      by_cases hc : r = rid ∨ j = i
      · have hji : j = i ∧ r = rid := by simpa [timerGuard, hc] using hgd
        obtain ⟨hj, hr⟩ := hji
        rw [hj, hr] at hcount ⊢
        have hcount' : (es.filter (isTimer i rid)).length = 0 := by
          have hT : isTimer i rid (GEvent.timer i rid) = true := by simp [isTimer]
          simpa [List.filter_cons, hT] using hcount
        have hval' : ∀ e ∈ alDelete s.pendingRequests i, e.2 ≠ rid := by
          intro e he hr2
          exact (mem_alDelete _ _ e he).2 (hval e (mem_alDelete _ _ e he).1 hr2)
        have hrest := runEvents_absent i rid es
          ({ s with pendingRequests := alDelete s.pendingRequests i })
          (alGet_delete_self s.pendingRequests i) hval' htr'
        refine ⟨timeoutResponse i, ?_, Or.inl rfl⟩
        simp only [runEvents, stepEvent, timerFire, alHas, hget, Option.isSome_some,
          if_true, List.filter_append, List.filter_cons, decide_eq_true_eq]
        simp [hrest]
      · push_neg at hc
        obtain ⟨hr, hj⟩ := hc
        have hcount' : (es.filter (isTimer i rid)).length = 1 := by
          have hT : isTimer i rid (GEvent.timer j r) = false := by simp [isTimer, hj]
          simpa [List.filter_cons, hT] using hcount
        cases hh : alGet s.pendingRequests j with
        | none =>
          simp only [runEvents, stepEvent, timerFire, alHas, hh, Option.isSome_none,
            Bool.false_eq_true, if_false, List.nil_append]
          obtain ⟨m', h1, h2⟩ := ih s hget hval htr' hcount'
          exact ⟨m', h1, resolution_shape_lift i _ es m' h2⟩
        | some cb =>
          have hget' : alGet (alDelete s.pendingRequests j) i = some rid := by
            rw [alGet_delete_ne _ _ _ (fun h => hj h.symm)]
            exact hget
          have hval' : ∀ e ∈ alDelete s.pendingRequests j, e.2 = rid → e.1 = i :=
            fun e he => hval e (mem_alDelete _ _ e he).1
          obtain ⟨m', h1, h2⟩ :=
            ih ({ s with pendingRequests := alDelete s.pendingRequests j })
              hget' hval' htr' hcount'
          refine ⟨m', ?_, resolution_shape_lift i _ es m' h2⟩
          simp only [runEvents, stepEvent, timerFire, alHas, hh, Option.isSome_some,
            if_true, List.filter_append, List.filter_cons, decide_eq_true_eq]
          rw [if_neg hr]
          simp only [List.filter_nil, List.nil_append]
          exact h1

/-! ## Helper lemmas for the claim theorems -/

theorem filterMap_parse_docs (parse : List Char → Option JSONRPCMessage)
    (f : List Char → JSONRPCMessage) (docs : List (List Char))
    (hdocs : ∀ d ∈ docs, nonblankLine d = true ∧ parse d = some (f d)) :
    (docs.filter nonblankLine).filterMap parse = docs.map f := by
  induction docs with
  | nil => rfl
  | cons d ds ih =>
    have hd := hdocs d (List.mem_cons_self d ds)
    have hds : ∀ x ∈ ds, nonblankLine x = true ∧ parse x = some (f x) :=
      fun x hx => hdocs x (List.mem_cons_of_mem d hx)
    simp only [List.filter_cons, hd.1, if_pos, List.filterMap_cons, hd.2, List.map_cons]
    rw [ih hds]

theorem resolveSseSessionId_explicit (sid : String) (h : sid ≠ "") :
    resolveSseSessionId (some sid) none = sid := by
  simp [resolveSseSessionId, resolveSessionId, jsOr, h]

theorem ensureSession_connected (so : Bool) (store : SessionStore) (sid : String)
    (s : Session) (hs : alGet store sid = some s) (hc : s.connected = true) :
    ensureSession so store sid = some (store, s) := by
  simp [ensureSession, hs, hc]

/-! ## Claim theorems -/

/-- Claim C3 counterexample.  The claim states that whenever session
creation fails because the backend could not be spawned, a subsequent
lookup for the session id finds no entry.  Concretely, take a store that
already holds a session for id `s0` that is disconnected (as left behind by
a process `error` event, which does not delete the entry).  A POST for `s0`
then attempts to re-create the session; the spawn fails and the caller gets
the HTTP 500 envelope — but the lookup for `s0` still finds the old entry,
contradicting the claim's "finds no entry". -/
theorem spawn_failure_stale_lookup_counterexample :
    (handleMessage false 0
        [("s0", { id := "s0", connected := false })] (some "s0") none none
        { id := some (RpcId.num 1), method := some "tools/list" }).reply
      = HttpReply.immediate 500 failedCreateBody ∧
    alGet (handleMessage false 0
        [("s0", { id := "s0", connected := false })] (some "s0") none none
        { id := some (RpcId.num 1), method := some "tools/list" }).sessions "s0"
      = some { id := "s0", connected := false } :=
  ⟨rfl, rfl⟩

/-- Claim C3 (amended): whenever session creation fails because the backend
process could not be spawned, the caller receives HTTP 500 with a JSON-RPC
internal-error envelope (code -32603) and no new Session is stored — the
store is unchanged, and if no session with that id was stored before the
call, a subsequent lookup for that session id finds no entry. -/
theorem spawn_failure_no_session_stored (rid : Nat) (store : SessionStore)
    (q h b : Option String) (m : JSONRPCMessage)
    (hfresh : alGet store (resolveSessionId q h b) = none) :
    (handleMessage false rid store q h b m).reply
      = HttpReply.immediate 500 failedCreateBody ∧
    (handleMessage false rid store q h b m).sessions = store ∧
    alGet (handleMessage false rid store q h b m).sessions
      (resolveSessionId q h b) = none := by
  refine ⟨?_, ?_, ?_⟩ <;> simp [handleMessage, ensureSession, hfresh, createSession]

/-- Claim C3 witness at a concrete input: an empty store and a spawn
failure for the default session id. -/
theorem spawn_failure_no_session_stored_witness :
    alGet ([] : SessionStore) (resolveSessionId none none none) = none ∧
    ((handleMessage false 0 [] none none none
        { id := some (RpcId.num 1), method := some "tools/list" }).reply
      = HttpReply.immediate 500 failedCreateBody ∧
    (handleMessage false 0 [] none none none
        { id := some (RpcId.num 1), method := some "tools/list" }).sessions = [] ∧
    alGet (handleMessage false 0 [] none none none
        { id := some (RpcId.num 1), method := some "tools/list" }).sessions
      (resolveSessionId none none none) = none) :=
  ⟨rfl, spawn_failure_no_session_stored 0 [] none none none
    { id := some (RpcId.num 1), method := some "tools/list" } rfl⟩

/-- Claim C4: for every backend message dispatched to a session, the two
delivery paths are independent and both fire when applicable: a reply whose
id is pending invokes the matching resolver with the message, removes the
entry, and is simultaneously written to the attached SSE sink; a late reply
for an already-removed id resolves nothing but still reaches the sink; and
with no sink attached the resolver path still fires alone. -/
theorem dispatch_paths_independent (s : Session) (m : JSONRPCMessage) (i : RpcId)
    (cb k : Nat) (hid : m.id = some i)
    (hpend : alGet s.pendingRequests i = some cb)
    (hsink : s.sseResponse = some k) :
    handleStdioMessage s m =
      ({ s with pendingRequests := alDelete s.pendingRequests i },
       [(cb, m)], [(k, m)]) ∧
    handleStdioMessage { s with pendingRequests := alDelete s.pendingRequests i } m =
      ({ s with pendingRequests := alDelete s.pendingRequests i }, [], [(k, m)]) ∧
    handleStdioMessage { s with sseResponse := none } m =
      ({ s with sseResponse := none, pendingRequests := alDelete s.pendingRequests i },
       [(cb, m)], []) := by
  refine ⟨?_, ?_, ?_⟩
  · simp [handleStdioMessage, hid, hpend, hsink]
  · simp [handleStdioMessage, hid, alGet_delete_self, hsink]
  · simp [handleStdioMessage, hid, hpend]

/-- Claim C4 witness at a concrete input: a session with pending entry
`1 ↦ 5` and sink `9`, receiving a reply with id 1. -/
theorem dispatch_paths_independent_witness :
    ({ id := "s", sseResponse := some 9, pendingRequests := [(RpcId.num 1, 5)],
       connected := true } : Session).sseResponse = some 9 ∧
    (handleStdioMessage
        { id := "s", sseResponse := some 9, pendingRequests := [(RpcId.num 1, 5)],
          connected := true }
        { id := some (RpcId.num 1), result := some (Json.obj []) } =
      ({ id := "s", sseResponse := some 9, pendingRequests := [], connected := true },
       [(5, { id := some (RpcId.num 1), result := some (Json.obj []) })],
       [(9, { id := some (RpcId.num 1), result := some (Json.obj []) })])) := by
  constructor
  · rfl
  · have h := (dispatch_paths_independent
      { id := "s", sseResponse := some 9, pendingRequests := [(RpcId.num 1, 5)],
        connected := true }
      { id := some (RpcId.num 1), result := some (Json.obj []) }
      (RpcId.num 1) 5 9 rfl rfl rfl).1
    exact h

/-- Claim C5: a `logging/setLevel` request (a message with an id) is
answered immediately with the empty success result and a `resources/list`
request with the empty resource list, with no backend action at all — in
particular the message is never written to the process stdin. -/
theorem intercepted_methods_answered_locally (so so2 : Bool) (rid rid2 : Nat)
    (store : SessionStore) (q h b : Option String) (s : Session)
    (m m2 : JSONRPCMessage) (i i2 : RpcId)
    (hs : alGet store (resolveSessionId q h b) = some s)
    (hc : s.connected = true)
    (hid : m.id = some i) (hm : m.method = some "logging/setLevel")
    (hid2 : m2.id = some i2) (hm2 : m2.method = some "resources/list") :
    handleMessage so rid store q h b m =
      { sessions := store, actions := [],
        reply := .immediate 200 (setLevelBody i) } ∧
    handleMessage so2 rid2 store q h b m2 =
      { sessions := store, actions := [],
        reply := .immediate 200 (resourcesListBody i2) } := by
  constructor
  · simp [handleMessage, ensureSession, hs, hc, hid, hm]
  · simp [handleMessage, ensureSession, hs, hc, hid2, hm2]

/-- Claim C5 witness at a concrete input: both intercepted methods against
a stored connected default session. -/
theorem intercepted_methods_answered_locally_witness :
    alGet [("default-session", ({ id := "default-session", connected := true } : Session))]
        (resolveSessionId none none none)
      = some { id := "default-session", connected := true } ∧
    (handleMessage true 0
        [("default-session", { id := "default-session", connected := true })]
        none none none { id := some (RpcId.num 1), method := some "logging/setLevel" } =
      { sessions := [("default-session", { id := "default-session", connected := true })],
        actions := [],
        reply := .immediate 200 (setLevelBody (RpcId.num 1)) } ∧
    handleMessage true 0
        [("default-session", { id := "default-session", connected := true })]
        none none none { id := some (RpcId.num 2), method := some "resources/list" } =
      { sessions := [("default-session", { id := "default-session", connected := true })],
        actions := [],
        reply := .immediate 200 (resourcesListBody (RpcId.num 2)) }) :=
  ⟨rfl, intercepted_methods_answered_locally true true 0 0
    [("default-session", { id := "default-session", connected := true })]
    none none none { id := "default-session", connected := true }
    { id := some (RpcId.num 1), method := some "logging/setLevel" }
    { id := some (RpcId.num 2), method := some "resources/list" }
    (RpcId.num 1) (RpcId.num 2) rfl rfl rfl rfl rfl rfl⟩

/-- Claim C6: a message posted without an id (a notification) registers no
pending entry, is written to the process stdin, and is immediately
acknowledged with HTTP 202 and an empty JSON object body; the store (and
hence the session's pending table) is unchanged and no reply is awaited. -/
theorem notification_ack_without_pending (so : Bool) (rid : Nat)
    (store : SessionStore) (q h b : Option String) (s : Session)
    (m : JSONRPCMessage)
    (hs : alGet store (resolveSessionId q h b) = some s)
    (hc : s.connected = true) (hid : m.id = none) :
    handleMessage so rid store q h b m =
      { sessions := store, actions := [Action.writeStdin m],
        reply := .immediate 202 (Json.obj []) } := by
  simp [handleMessage, ensureSession, hs, hc, hid]

/-- Claim C6 witness at a concrete input: a notification posted to a stored
connected default session. -/
theorem notification_ack_without_pending_witness :
    alGet [("default-session", ({ id := "default-session", connected := true } : Session))]
        (resolveSessionId none none none)
      = some { id := "default-session", connected := true } ∧
    ({ method := some "notifications/initialized" } : JSONRPCMessage).id = none ∧
    handleMessage true 0
        [("default-session", { id := "default-session", connected := true })]
        none none none { method := some "notifications/initialized" } =
      { sessions := [("default-session", { id := "default-session", connected := true })],
        actions := [Action.writeStdin { method := some "notifications/initialized" }],
        reply := .immediate 202 (Json.obj []) } :=
  ⟨rfl, rfl, notification_ack_without_pending true 0
    [("default-session", { id := "default-session", connected := true })]
    none none none { id := "default-session", connected := true }
    { method := some "notifications/initialized" } rfl rfl rfl⟩

/-- Claim C9: method interception applies only to messages that carry an
id.  A notification (id undefined) whose method is `logging/setLevel` or
`resources/list` is not intercepted: it is written to the process stdin and
acknowledged with HTTP 202 and an empty body like any other notification. -/
theorem notification_with_intercepted_method_forwarded (so : Bool) (rid : Nat)
    (store : SessionStore) (q h b : Option String) (s : Session)
    (m : JSONRPCMessage)
    (hs : alGet store (resolveSessionId q h b) = some s)
    (hc : s.connected = true) (hid : m.id = none)
    (_hm : m.method = some "logging/setLevel" ∨ m.method = some "resources/list") :
    handleMessage so rid store q h b m =
      { sessions := store, actions := [Action.writeStdin m],
        reply := .immediate 202 (Json.obj []) } := by
  simp [handleMessage, ensureSession, hs, hc, hid]

/-- Claim C9 witness at a concrete input: a `logging/setLevel` notification
(no id) is forwarded, not intercepted. -/
theorem notification_with_intercepted_method_forwarded_witness :
    alGet [("default-session", ({ id := "default-session", connected := true } : Session))]
        (resolveSessionId none none none)
      = some { id := "default-session", connected := true } ∧
    ({ method := some "logging/setLevel" } : JSONRPCMessage).id = none ∧
    handleMessage true 0
        [("default-session", { id := "default-session", connected := true })]
        none none none { method := some "logging/setLevel" } =
      { sessions := [("default-session", { id := "default-session", connected := true })],
        actions := [Action.writeStdin { method := some "logging/setLevel" }],
        reply := .immediate 202 (Json.obj []) } :=
  ⟨rfl, rfl, notification_with_intercepted_method_forwarded true 0
    [("default-session", { id := "default-session", connected := true })]
    none none none { id := "default-session", connected := true }
    { method := some "logging/setLevel" } rfl rfl rfl (Or.inl rfl)⟩

/-- Claim C8: when a session's backend process exits, the exit handler
marks the session disconnected and removes it from the store (and spawns
nothing in its place); the pending table of the captured session is left
untouched — no pending request is rejected at exit — and each still-pending
entry is resolved only when its own timer fires, with the synthetic
timeout error. -/
theorem process_exit_removes_session_keeps_pending (store : SessionStore)
    (sid : String) (s : Session) (i : RpcId) (rid : Nat)
    (hs : alGet store sid = some s)
    (hp : alGet s.pendingRequests i = some rid) :
    alGet (onProcessExit store sid).1 sid = none ∧
    (onProcessExit store sid).2 = some { s with connected := false } ∧
    ({ s with connected := false } : Session).pendingRequests = s.pendingRequests ∧
    timerFire { s with connected := false } i rid
      = ({ s with connected := false, pendingRequests := alDelete s.pendingRequests i },
         [(rid, timeoutResponse i)]) := by
  refine ⟨?_, ?_, rfl, ?_⟩
  · simp [onProcessExit, hs, alGet_delete_self]
  · simp [onProcessExit, hs]
  · simp [timerFire, alHas, hp]

/-- Claim C8 witness at a concrete input: a stored session with one pending
request whose process exits. -/
theorem process_exit_removes_session_keeps_pending_witness :
    alGet [("s1", ({ id := "s1", pendingRequests := [(RpcId.num 3, 7)],
                     connected := true } : Session))] "s1"
      = some { id := "s1", pendingRequests := [(RpcId.num 3, 7)], connected := true } ∧
    (alGet (onProcessExit
        [("s1", { id := "s1", pendingRequests := [(RpcId.num 3, 7)], connected := true })]
        "s1").1 "s1" = none ∧
    (onProcessExit
        [("s1", { id := "s1", pendingRequests := [(RpcId.num 3, 7)], connected := true })]
        "s1").2
      = some { id := "s1", pendingRequests := [(RpcId.num 3, 7)], connected := false } ∧
    ({ id := "s1", pendingRequests := [(RpcId.num 3, 7)],
        connected := false } : Session).pendingRequests = [(RpcId.num 3, 7)] ∧
    timerFire { id := "s1", pendingRequests := [(RpcId.num 3, 7)], connected := false }
        (RpcId.num 3) 7
      = ({ id := "s1", pendingRequests := [], connected := false },
         [(7, timeoutResponse (RpcId.num 3))])) :=
  ⟨rfl, process_exit_removes_session_keeps_pending
    [("s1", { id := "s1", pendingRequests := [(RpcId.num 3, 7)], connected := true })]
    "s1" { id := "s1", pendingRequests := [(RpcId.num 3, 7)], connected := true }
    (RpcId.num 3) 7 rfl rfl⟩

/-- Claim C10: a child-process `error` event marks the session disconnected
but does not remove it from the store (only `exit` deletes the entry), and
`handleSSE` checks only for presence, so it reuses the stored disconnected
session — attaching the new sink to it instead of creating a fresh one. -/
theorem error_event_keeps_disconnected_session (so : Bool) (store : SessionStore)
    (sid : String) (s : Session) (res : Nat)
    (hs : alGet store sid = some s) (hsid : sid ≠ "") :
    alGet (onProcessError store sid) sid = some { s with connected := false } ∧
    alGet (onProcessExit store sid).1 sid = none ∧
    handleSSE so (onProcessError store sid) (some sid) none res
      = (alSet (onProcessError store sid) sid
          { s with connected := false, sseResponse := some res }, .ok sid) := by
  have h1 : onProcessError store sid
      = alSet store sid { s with connected := false } := by
    simp [onProcessError, hs]
  have h2 : alGet (onProcessError store sid) sid
      = some { s with connected := false } := by
    rw [h1]
    exact alGet_set_self _ _ _
  refine ⟨h2, ?_, ?_⟩
  · simp [onProcessExit, hs, alGet_delete_self]
  · simp [handleSSE, resolveSseSessionId_explicit sid hsid, h2]

/-- Claim C10 witness at a concrete input: a stored session whose process
fires `error`, then an SSE connection for the same id. -/
theorem error_event_keeps_disconnected_session_witness :
    alGet [("s2", ({ id := "s2", connected := true } : Session))] "s2"
      = some { id := "s2", connected := true } ∧
    ("s2" : String) ≠ "" ∧
    (alGet (onProcessError [("s2", { id := "s2", connected := true })] "s2") "s2"
      = some { id := "s2", connected := false } ∧
    alGet (onProcessExit [("s2", { id := "s2", connected := true })] "s2").1 "s2" = none ∧
    handleSSE true (onProcessError [("s2", { id := "s2", connected := true })] "s2")
        (some "s2") none 4
      = (alSet (onProcessError [("s2", { id := "s2", connected := true })] "s2") "s2"
          { id := "s2", connected := false, sseResponse := some 4 }, .ok "s2")) :=
  ⟨rfl, by decide, error_event_keeps_disconnected_session true
    [("s2", { id := "s2", connected := true })] "s2"
    { id := "s2", connected := true } 4 rfl (by decide)⟩

/-- Claim C7: opening a new SSE connection for a session replaces the
previously stored sink, so subsequent backend pushes are written only to
the new sink; a close event from the superseded old connection does not
clear the newer sink, because the close handler detaches only when the
stored sink is the response instance that closed — while a close of the
current connection does clear it. -/
theorem sse_sink_replacement_and_stale_close (so so2 : Bool)
    (store : SessionStore) (sid : String) (s : Session) (r1 r2 : Nat)
    (m : JSONRPCMessage)
    (hs : alGet store sid = some s) (hsid : sid ≠ "") (hr : r1 ≠ r2) :
    alGet (handleSSE so2 (handleSSE so store (some sid) none r1).1
        (some sid) none r2).1 sid
      = some { s with sseResponse := some r2 } ∧
    onSseClose (handleSSE so2 (handleSSE so store (some sid) none r1).1
        (some sid) none r2).1 sid r1
      = (handleSSE so2 (handleSSE so store (some sid) none r1).1
          (some sid) none r2).1 ∧
    (handleStdioMessage { s with sseResponse := some r2 } m).2.2 = [(r2, m)] ∧
    alGet (onSseClose (handleSSE so2 (handleSSE so store (some sid) none r1).1
        (some sid) none r2).1 sid r2) sid
      = some { s with sseResponse := none } := by
  have hres := resolveSseSessionId_explicit sid hsid
  have h1 : (handleSSE so store (some sid) none r1).1
      = alSet store sid { s with sseResponse := some r1 } := by
    simp [handleSSE, hres, hs]
  have hget1 : alGet (alSet store sid { s with sseResponse := some r1 }) sid
      = some { s with sseResponse := some r1 } := alGet_set_self _ _ _
  have h2 : (handleSSE so2 (handleSSE so store (some sid) none r1).1
      (some sid) none r2).1
      = alSet (alSet store sid { s with sseResponse := some r1 }) sid
          { s with sseResponse := some r2 } := by
    rw [h1]
    simp [handleSSE, hres, hget1]
  have hget2 : alGet (alSet (alSet store sid { s with sseResponse := some r1 }) sid
      { s with sseResponse := some r2 }) sid
      = some { s with sseResponse := some r2 } := alGet_set_self _ _ _
  refine ⟨?_, ?_, ?_, ?_⟩
  · rw [h2]
    exact hget2
  · rw [h2]
    have hne : ({ s with sseResponse := some r2 } : Session).sseResponse ≠ some r1 := by
      intro hcontra
      simp only at hcontra
      exact hr (Option.some.inj hcontra).symm
    simp [onSseClose, hget2, hne]
  · cases hmi : m.id with
    | none => simp [handleStdioMessage, hmi]
    | some i =>
      cases hg : alGet s.pendingRequests i with
      | none => simp [handleStdioMessage, hmi, hg]
      | some cb => simp [handleStdioMessage, hmi, hg]
  · rw [h2]
    simp only [onSseClose, hget2, if_pos rfl]
    exact alGet_set_self _ _ _

/-- Claim C7 witness at a concrete input: two sequential SSE connections
(tags 1 and 2) for the same stored session, a push, then a stale close of
the first connection and a genuine close of the second. -/
theorem sse_sink_replacement_and_stale_close_witness :
    alGet [("s3", ({ id := "s3", connected := true } : Session))] "s3"
      = some { id := "s3", connected := true } ∧
    ("s3" : String) ≠ "" ∧ (1 : Nat) ≠ 2 ∧
    (alGet (handleSSE true (handleSSE true
          [("s3", ({ id := "s3", connected := true } : Session))]
          (some "s3") none 1).1 (some "s3") none 2).1 "s3"
      = some { id := "s3", connected := true, sseResponse := some 2 } ∧
    onSseClose (handleSSE true (handleSSE true
          [("s3", ({ id := "s3", connected := true } : Session))]
          (some "s3") none 1).1 (some "s3") none 2).1 "s3" 1
      = (handleSSE true (handleSSE true
          [("s3", ({ id := "s3", connected := true } : Session))]
          (some "s3") none 1).1 (some "s3") none 2).1 ∧
    (handleStdioMessage { id := "s3", connected := true, sseResponse := some 2 }
        { method := some "notifications/progress" }).2.2
      = [(2, { method := some "notifications/progress" })] ∧
    alGet (onSseClose (handleSSE true (handleSSE true
          [("s3", ({ id := "s3", connected := true } : Session))]
          (some "s3") none 1).1 (some "s3") none 2).1 "s3" 2) "s3"
      = some { id := "s3", connected := true, sseResponse := none }) :=
  ⟨rfl, by decide, by decide, sse_sink_replacement_and_stale_close true true
    [("s3", ({ id := "s3", connected := true } : Session))] "s3"
    { id := "s3", connected := true } 1 2
    { method := some "notifications/progress" } rfl (by decide) (by decide)⟩

/-- Claim C1: for a JSON-RPC request submitted through `handleMessage` that
carries an id and is not intercepted, the pending resolver is registered
before the message is written to stdin (the action list is exactly
register, write, arm-timer, in that order, and the reply suspends on the
resolver); and over any event trace in which that request's 30-second
timer fires exactly once and no other timer event mentions this id or this
resolver, exactly one resolution of the resolver occurs — either a backend
reply carrying the request id, or the synthetic timeout error with code
-32603 and message "Request timeout" — never both and never neither. -/
theorem request_resolution_exactly_once (so : Bool) (rid : Nat)
    (store : SessionStore) (q h b : Option String) (s : Session)
    (m : JSONRPCMessage) (i : RpcId) (tr : List GEvent)
    (hs : alGet store (resolveSessionId q h b) = some s)
    (hc : s.connected = true)
    (hid : m.id = some i)
    (hm1 : m.method ≠ some "logging/setLevel")
    (hm2 : m.method ≠ some "resources/list")
    (hfresh : ∀ e ∈ s.pendingRequests, e.2 ≠ rid)
    (htr : ∀ ev ∈ tr, timerGuard i rid ev = true)
    (hcount : (tr.filter (isTimer i rid)).length = 1) :
    handleMessage so rid store q h b m =
      { sessions := alSet store (resolveSessionId q h b)
          { s with pendingRequests := alSet s.pendingRequests i rid },
        actions := [.setPending i rid, .writeStdin m, .armTimer 30000 i rid],
        reply := .awaiting rid } ∧
    ∃ mr, ((runEvents { s with pendingRequests := alSet s.pendingRequests i rid }
          tr).2.filter (fun p => decide (p.1 = rid))) = [(rid, mr)] ∧
      (mr = timeoutResponse i ∨ (GEvent.stdio mr ∈ tr ∧ mr.id = some i)) := by
  constructor
  · simp [handleMessage, ensureSession, hs, hc, hid, hm1, hm2]
  · have hval : ∀ e ∈ alSet s.pendingRequests i rid, e.2 = rid → e.1 = i := by
      intro e he h2
      rcases mem_alSet s.pendingRequests i rid e he with h1 | h1
      · rw [h1]
      · exact absurd h2 (hfresh e h1)
    exact runEvents_exactly_once i rid tr
      ({ s with pendingRequests := alSet s.pendingRequests i rid })
      (alGet_set_self s.pendingRequests i rid) hval htr hcount

/-- Claim C1 witness at a concrete input: a `tools/list` request with id 1
posted to a stored connected session; the trace contains only the armed
timer firing, so the single resolution is the synthetic timeout error. -/
theorem request_resolution_exactly_once_witness :
    alGet [("default-session", ({ id := "default-session", connected := true } : Session))]
        (resolveSessionId none none none)
      = some { id := "default-session", connected := true } ∧
    (∀ e ∈ ([] : List (RpcId × Nat)), e.2 ≠ 0) ∧
    (∀ ev ∈ [GEvent.timer (RpcId.num 1) 0], timerGuard (RpcId.num 1) 0 ev = true) ∧
    ([GEvent.timer (RpcId.num 1) 0].filter (isTimer (RpcId.num 1) 0)).length = 1 ∧
    (handleMessage true 0
        [("default-session", ({ id := "default-session", connected := true } : Session))]
        none none none { id := some (RpcId.num 1), method := some "tools/list" } =
      { sessions := [("default-session",
          { id := "default-session", connected := true,
            pendingRequests := [(RpcId.num 1, 0)] })],
        actions := [.setPending (RpcId.num 1) 0,
          .writeStdin { id := some (RpcId.num 1), method := some "tools/list" },
          .armTimer 30000 (RpcId.num 1) 0],
        reply := .awaiting 0 } ∧
    ∃ mr, ((runEvents
          { id := "default-session", connected := true,
            pendingRequests := [(RpcId.num 1, 0)] }
          [GEvent.timer (RpcId.num 1) 0]).2.filter
            (fun p => decide (p.1 = 0))) = [(0, mr)] ∧
      (mr = timeoutResponse (RpcId.num 1) ∨
        (GEvent.stdio mr ∈ [GEvent.timer (RpcId.num 1) 0] ∧
          mr.id = some (RpcId.num 1)))) := by
  refine ⟨rfl, by decide, by decide, by decide, ?_⟩
  have h := request_resolution_exactly_once true 0
    [("default-session", ({ id := "default-session", connected := true } : Session))]
    none none none { id := "default-session", connected := true }
    { id := some (RpcId.num 1), method := some "tools/list" }
    (RpcId.num 1) [GEvent.timer (RpcId.num 1) 0]
    rfl rfl rfl (by simp) (by simp) (by decide) (by decide) (by decide)
  exact h

/-- Claim C2: the frame decoder is chunk-boundary invariant — feeding any
sequence of chunks (starting from a newline-free buffer) is the same as
feeding their concatenation at once; one feed dispatches exactly the
successfully parsed non-blank complete lines, in order, so a line that
fails to parse is dropped without affecting subsequent lines; after every
feed the buffer is exactly the trailing unterminated fragment and contains
no newline; and when the input is precisely a sequence of newline-terminated
parseable documents, exactly those documents are dispatched, in order. -/
theorem frame_decoder_correct (parse : List Char → Option JSONRPCMessage)
    (f : List Char → JSONRPCMessage) (s : Session)
    (chunks : List (List Char)) (data : List Char) (docs : List (List Char))
    (hbuf : '\n' ∉ s.messageBuffer)
    (hdocs : ∀ d ∈ docs, '\n' ∉ d ∧ nonblankLine d = true ∧ parse d = some (f d)) :
    handleStdioDataList parse s chunks = handleStdioData parse s chunks.flatten ∧
    handleStdioData parse s data =
      dispatchMessages
        { s with messageBuffer := (splitFrames (s.messageBuffer ++ data)).2 }
        (((splitFrames (s.messageBuffer ++ data)).1.filter nonblankLine).filterMap
          parse) ∧
    '\n' ∉ (handleStdioData parse s data).1.messageBuffer ∧
    handleStdioData parse { s with messageBuffer := [] }
        ((docs.map (fun d => d ++ ['\n'])).flatten) =
      dispatchMessages { s with messageBuffer := [] } (docs.map f) := by
  refine ⟨handleStdioDataList_flatten parse chunks s hbuf, ?_,
    handleStdioData_no_newline parse s data, ?_⟩
  · simp only [handleStdioData]
    rw [processLines_eq_dispatch]
  · have hnl : ∀ d ∈ docs, '\n' ∉ d := fun d hd => (hdocs d hd).1
    simp only [handleStdioData]
    rw [show ({ s with messageBuffer := [] } : Session).messageBuffer ++
          (docs.map (fun d => d ++ ['\n'])).flatten
        = (docs.map (fun d => d ++ ['\n'])).flatten from rfl]
    rw [splitFrames_flatten_docs docs hnl]
    dsimp only
    rw [processLines_eq_dispatch,
      filterMap_parse_docs parse f docs
        (fun d hd => ⟨(hdocs d hd).2.1, (hdocs d hd).2.2⟩)]

/-- Claim C2 witness at a concrete input: the parser accepting exactly the
line `x`, the document list containing that single line, and the chunk
sequence that splits its newline-terminated encoding across two feeds. -/
theorem frame_decoder_correct_witness :
    '\n' ∉ ({ id := "s4", connected := true } : Session).messageBuffer ∧
    (∀ d ∈ [['x']], '\n' ∉ d ∧ nonblankLine d = true ∧
      (fun l => if l = ['x']
          then some ({ id := some (RpcId.num 7) } : JSONRPCMessage)
          else none) d
        = some ((fun _ => ({ id := some (RpcId.num 7) } : JSONRPCMessage)) d)) ∧
    handleStdioDataList
        (fun l => if l = ['x']
          then some ({ id := some (RpcId.num 7) } : JSONRPCMessage)
          else none)
        { id := "s4", connected := true } [['x'], ['\n']]
      = handleStdioData
          (fun l => if l = ['x']
            then some ({ id := some (RpcId.num 7) } : JSONRPCMessage)
            else none)
          { id := "s4", connected := true } [['x'], ['\n']].flatten ∧
    handleStdioData
        (fun l => if l = ['x']
          then some ({ id := some (RpcId.num 7) } : JSONRPCMessage)
          else none)
        { ({ id := "s4", connected := true } : Session) with messageBuffer := [] }
        (([['x']].map (fun d => d ++ ['\n'])).flatten)
      = dispatchMessages
          { ({ id := "s4", connected := true } : Session) with messageBuffer := [] }
          ([['x']].map (fun _ => ({ id := some (RpcId.num 7) } : JSONRPCMessage))) := by
  have hdocs : ∀ d ∈ [['x']], '\n' ∉ d ∧ nonblankLine d = true ∧
      (fun l => if l = ['x']
        then some ({ id := some (RpcId.num 7) } : JSONRPCMessage)
        else none) d
      = some ((fun _ => ({ id := some (RpcId.num 7) } : JSONRPCMessage)) d) := by
    intro d hd
    rw [List.mem_singleton] at hd
    subst hd
    exact ⟨by decide, by decide, rfl⟩
  have h := frame_decoder_correct
    (fun l => if l = ['x']
      then some ({ id := some (RpcId.num 7) } : JSONRPCMessage)
      else none)
    (fun _ => ({ id := some (RpcId.num 7) } : JSONRPCMessage))
    { id := "s4", connected := true }
    [['x'], ['\n']] ['x', '\n'] [['x']]
    (by decide) hdocs
  exact ⟨by decide, hdocs, h.1, h.2.2.2⟩

end Gateway
